import Mathlib

/-!
Verification of the `next-review` gerrit review-selection tool.

The repository ships two variants of the pipeline:
* `src/next-review.py` — the original script; embedded below in namespace `V1`.
* `src/next_review.py` — the packaged module; embedded below in namespace `V2`.

JSON records are embedded as Lean structures.  Gerrit encodes vote values as
decimal strings ("1", "-2", …); they are embedded as the denoted integers.
Fields the source accesses by direct indexing (`x['k']`) are required fields;
fields accessed with `.get(k, default)` are `Option`s / defaulted.  Code that
can raise (indexing `[-1]` on an empty list, a missing dictionary key) is
embedded as an `Option`-returning function where the claims depend on it.
-/

namespace V1
/-! Embedding of `src/next-review.py`. -/

/-- The `by` object of an approval (`vote['by']['username']` is accessed by
direct indexing, so `username` is a required field). -/
structure By where
  username : String
deriving DecidableEq

/-- One approval on a patch set: `{'by': …, 'value': '<int>'}`. -/
structure Approval where
  by_ : By
  value : Int
deriving DecidableEq

/-- One patch set with its approvals (`review['patchSets'][-1]['approvals']`). -/
structure PatchSet where
  approvals : List Approval
deriving DecidableEq

/-- One review record as consumed by the V1 filters. -/
structure Review where
  url : String
  subject : String
  status : String
  lastUpdated : Int
  owner : By
  patchSets : List PatchSet
deriving DecidableEq

/-- `review['patchSets'][-1]['approvals']`: the approvals of the most recent
patch set.  The source presumes `patchSets` is nonempty; the default branch is
never exercised by the claims below. -/
def lastPatchSetApprovals (review : Review) : List Approval :=
  (review.patchSets.getLastD { approvals := [] }).approvals

/-- The sort key comparison of `sort_reviews_by_last_updated`. -/
def lastUpdatedLE (a b : Review) : Bool :=
  decide (a.lastUpdated ≤ b.lastUpdated)

/-- `sort_reviews_by_last_updated`: sort ascending by last update date
(Python `sorted` is a stable sort, embedded as `List.mergeSort`). -/
def sort_reviews_by_last_updated (reviews : List Review) : List Review :=
  reviews.mergeSort lastUpdatedLE

/-- `ignore_blocked_reviews`: drop a review when `"-2"` occurs among the
values of the last patch set's approvals. -/
def ignore_blocked_reviews (reviews : List Review) : List Review :=
  reviews.filter (fun review =>
    !decide ((-2 : Int) ∈ (lastPatchSetApprovals review).map Approval.value))

/-- Common body of `require_jenkins_upvote` / `require_smokestack_upvote`:
for each review, for each approval of the last patch set by `bot` with value
`'1'`, append the review (the source has no `break`, so the review is appended
once per matching vote). -/
def requireUpvoteBy (bot : String) : List Review → List Review
  | [] => []
  | review :: rest =>
    ((lastPatchSetApprovals review).filter
        (fun vote => vote.by_.username == bot && vote.value == 1)).map (fun _ => review)
      ++ requireUpvoteBy bot rest

/-- `require_jenkins_upvote`. -/
def require_jenkins_upvote (reviews : List Review) : List Review :=
  requireUpvoteBy "jenkins" reviews

/-- `require_smokestack_upvote`. -/
def require_smokestack_upvote (reviews : List Review) : List Review :=
  requireUpvoteBy "smokestack" reviews

/-- `ignore_my_reviews`: keep reviews whose owner's username differs from the
caller's username (`args.username` may be `None`, hence `Option String`). -/
def ignore_my_reviews (reviews : List Review) (username : Option String) : List Review :=
  reviews.filter (fun review => decide (some review.owner.username ≠ username))

/-- `ignore_wip`: keep reviews whose status is not `'WORKINPROGRESS'`. -/
def ignore_wip (reviews : List Review) : List Review :=
  reviews.filter (fun x => decide (x.status ≠ "WORKINPROGRESS"))

end V1

namespace V2
/-! Embedding of `src/next_review.py`. -/

/-- An identity reference (owner, voter, or commenter): `_name` reads
`ref.get('username', ref.get('email'))`, so both keys are optional. -/
structure Ref where
  username : Option String
  email : Option String
deriving DecidableEq

/-- One approval on the current patch set: `{'type': …, 'value': '<int>',
'by': …}` (the `by` identity is present in the JSON although
`votes_for_review` does not read it). -/
structure Approval where
  type : String
  value : Int
  by_ : Ref
deriving DecidableEq

/-- The current patch set; `review['currentPatchSet'].get('approvals', [])`
defaults a missing key to the empty list. -/
structure PatchSet where
  approvals : List Approval
deriving DecidableEq

/-- One inline comment; only the `reviewer` identity is read. -/
structure Comment where
  reviewer : Ref
deriving DecidableEq

/-- One review record as consumed by the V2 pipeline.  The `score` field is
materialized by `add_reviewday_scores` before the ranker reads it; it is
embedded as an always-present field updated by the enrichment stage. -/
structure Review where
  url : String
  project : String
  subject : String
  owner : Ref
  lastUpdated : Int
  currentPatchSet : PatchSet
  comments : List Comment
  score : Int
deriving DecidableEq

/-- `_name`: the username of a reference, falling back to its email. -/
def _name (ref : Ref) : Option String :=
  match ref.username with
  | some u => some u
  | none => ref.email

/-- `votes_for_review`: the integer values of the current patch set's
approvals whose type is `Code-Review` or `Verified`. -/
def votes_for_review (review : Review) : List Int :=
  (review.currentPatchSet.approvals.filter
      (fun x => x.type == "Code-Review" || x.type == "Verified")).map Approval.value

/-- `ignore_my_good_reviews`: yield a review when it is not owned by the
caller, or when it is owned by the caller and carries a `-1` or `-2` among
its current votes. -/
def ignore_my_good_reviews (reviews : List Review) (username email : Option String) :
    List Review :=
  match reviews with
  | [] => []
  | review :: rest =>
    let vote_values := votes_for_review review
    if _name review.owner ≠ username ∧ _name review.owner ≠ email then
      -- either it's not our own review
      review :: ignore_my_good_reviews rest username email
    else if (_name review.owner = username ∨ _name review.owner = email)
        ∧ ((-1 : Int) ∈ vote_values ∨ (-2 : Int) ∈ vote_values) then
      -- or it is our own review, and it has a downvote
      review :: ignore_my_good_reviews rest username email
    else
      ignore_my_good_reviews rest username email

/-- `ignore_previously_commented`: yield a review unless the reviewer of its
last comment is the caller.  `review['comments'][-1]` raises `IndexError` on
an empty comment list; that failure is embedded as `none`. -/
def ignore_previously_commented (reviews : List Review) (username email : Option String) :
    Option (List Review) :=
  match reviews with
  | [] => some []
  | review :: rest =>
    match review.comments.getLast? with
    | none => none
    | some c =>
      match ignore_previously_commented rest username email with
      | none => none
      | some out =>
        if _name c.reviewer ≠ username ∧ _name c.reviewer ≠ email then
          some (review :: out)
        else
          some out

/-- The identity `ignore_previously_commented` inspects: the `_name` of the
last comment's reviewer (meaningful only for a nonempty comment list). -/
def lastCommenterName (review : Review) : Option String :=
  match review.comments.getLast? with
  | some c => _name c.reviewer
  | none => none

/-- `filter_ignore_file`: skip reviews whose URL occurs in the ignore file
(embedded as the list of whitespace-separated tokens of the file). -/
def filter_ignore_file (reviews : List Review) (reviews_to_ignore : List String) :
    List Review :=
  reviews.filter (fun review => !decide (review.url ∈ reviews_to_ignore))

/-- The value stored under a change URL in the reviewday data: an object with
a `score` key. -/
structure ScoreEntry where
  score : Int
deriving DecidableEq

/-- `ReviewDayData._data`: the loaded cache, a JSON object whose `projects`
key maps project names to maps from change URLs to score entries (dictionaries
embedded as association lists with distinct keys). -/
structure ReviewDayData where
  projects : List (String × List (String × ScoreEntry))
deriving DecidableEq

/-- Python `str.split('/')` at the character level (keeps empty fields; the
result is never empty). -/
def splitCharsOnSlash : List Char → List (List Char)
  | [] => [[]]
  | c :: cs =>
    match splitCharsOnSlash cs, decide (c = '/') with
    | rest, true => [] :: rest
    | r :: rs, false => (c :: r) :: rs
    | [], false => [[c]]

/-- Python `s.split('/')`. -/
def splitSlash (s : String) : List String :=
  (splitCharsOnSlash s.data).map String.mk

/-- Python `s.rsplit('/', 1)`: split off everything after the last `/`. -/
def rsplitSlash1 (s : String) : List String :=
  let parts := splitSlash s
  if parts.length ≤ 1 then [s]
  else [String.intercalate "/" parts.dropLast, parts.getLastD ""]

/-- `ReviewDayData.get_score`: `-1` when the review's project (last path
segment) is absent from the data; otherwise look the rebuilt change URL up in
the project's map.  A URL without `/` makes `url_parts[1]` raise, and a change
URL absent from the project's map raises `KeyError`; both are embedded as
`none`. -/
def get_score (rd : ReviewDayData) (review : Review) : Option Int :=
  -- remove openstack/ from project name
  let project_name := (splitSlash review.project).getLastD ""
  match rd.projects.lookup project_name with
  | none => some (-1)
  | some proj =>
    match rsplitSlash1 review.url with
    | [a, b] => (proj.lookup (a ++ "/#change," ++ b)).map ScoreEntry.score
    | _ => none

/-- `add_reviewday_scores`: set each review's `score` to its reviewday score. -/
def add_reviewday_scores (reviews : List Review) (reviewday : ReviewDayData) :
    Option (List Review) :=
  match reviews with
  | [] => some []
  | review :: rest =>
    match get_score reviewday review with
    | none => none
    | some s =>
      match add_reviewday_scores rest reviewday with
      | none => none
      | some out => some ({ review with score := s } :: out)

/-- The sort key comparison of `sort_review_by_reviewday_score`: ascending
lexicographic order on `(-score, lastUpdated)`. -/
def reviewdayLE (a b : Review) : Bool :=
  decide (-a.score < -b.score ∨ (-a.score = -b.score ∧ a.lastUpdated ≤ b.lastUpdated))

/-- `sort_review_by_reviewday_score`: stable sort by `(-score, lastUpdated)`
(Python `sorted` is a stable sort, embedded as `List.mergeSort`). -/
def sort_review_by_reviewday_score (reviews : List Review) : List Review :=
  reviews.mergeSort reviewdayLE

/-- One output line of `render_reviews` (color codes disabled, as when the
`CLICOLOR` environment variable is unset). -/
def renderLine (review : Review) : String :=
  review.url ++ " " ++ review.project ++ " " ++ review.subject.trim

/-- `render_reviews`: one line per review, up to `maximum` when given. -/
def render_reviews (reviews : List Review) (maximum : Option Nat) : List String :=
  (match maximum with
   | some m => reviews.take m
   | none => reviews).map renderLine

/-- The observable outcome of `main`'s presentation step: printed lines, the
URL opened in a browser (if any), and the argument passed to `sys.exit`. -/
structure MainResult where
  lines : List String
  opened : Option String
  exitCode : Nat
deriving DecidableEq

/-- The tail of `main` after the pipeline: list mode renders everything;
otherwise a nonempty result renders and opens the top review, an empty one
prints `Nothing to review!`; `sys.exit(len(reviews))` in every case. -/
def main_present (list : Bool) (reviews : List Review) : MainResult :=
  if list then
    { lines := render_reviews reviews none
      opened := none
      exitCode := reviews.length }
  else if reviews ≠ [] then
    { lines := render_reviews reviews (some 1)
      opened := reviews.head?.map Review.url
      exitCode := reviews.length }
  else
    { lines := ["Nothing to review!"]
      opened := none
      exitCode := reviews.length }

/-- The filter half of `main`: the pipeline from the raw query result to the
ranked list (the ignore-file stage runs only when `--ignore-file` was given). -/
def main_filtered (reviews : List Review) (username email : Option String)
    (ignore_list : Option (List String)) (reviewday : ReviewDayData) :
    Option (List Review) := do
  let reviews := ignore_my_good_reviews reviews username email
  let reviews ← ignore_previously_commented reviews username email
  let reviews :=
    match ignore_list with
    | some igns => filter_ignore_file reviews igns
    | none => reviews
  let reviews ← add_reviewday_scores reviews reviewday
  some (sort_review_by_reviewday_score reviews)

/-- `main`: pipeline then presentation. -/
def main_run (list : Bool) (reviews : List Review) (username email : Option String)
    (ignore_list : Option (List String)) (reviewday : ReviewDayData) :
    Option MainResult :=
  (main_filtered reviews username email ignore_list reviewday).map (main_present list)

end V2

/-! Concrete records used by the counterexamples and witnesses below. -/

/-- A caller identity with a username. -/
def alice : V2.Ref := { username := some "alice", email := none }

/-- A third-party identity known only by email. -/
def bob : V2.Ref := { username := none, email := some "bob@example.com" }

/-- A review owned by the caller `alice` whose only downvote is `alice`'s own
`-2`: no block vote from another party is present. -/
def cx1Review : V2.Review :=
  { url := "https://review.openstack.org/101"
    project := "openstack/keystone"
    subject := "self review"
    owner := alice
    lastUpdated := 10
    currentPatchSet :=
      { approvals := [{ type := "Code-Review", value := -2, by_ := alice }] }
    comments := [{ reviewer := bob }]
    score := 0 }

/-- A review owned by the caller `alice` carrying a `-1` from `bob`. -/
def w1Review : V2.Review :=
  { url := "https://review.openstack.org/102"
    project := "openstack/keystone"
    subject := "needs attention"
    owner := alice
    lastUpdated := 11
    currentPatchSet :=
      { approvals := [{ type := "Code-Review", value := -1, by_ := bob }] }
    comments := [{ reviewer := bob }]
    score := 0 }

/-- The jenkins bot identity (V1). -/
def jenkinsBy : V1.By := { username := "jenkins" }

/-- A V1 review whose last patch set carries a jenkins approval of value `+2`. -/
def cx2Review : V1.Review :=
  { url := "https://review.openstack.org/201"
    subject := "verified at +2"
    status := "NEW"
    lastUpdated := 0
    owner := { username := "carol" }
    patchSets := [{ approvals := [{ by_ := jenkinsBy, value := 2 }] }] }

/-- A V1 review whose last patch set carries two jenkins approvals of value
`+1`. -/
def cx3Review : V1.Review :=
  { url := "https://review.openstack.org/301"
    subject := "doubly verified"
    status := "NEW"
    lastUpdated := 0
    owner := { username := "carol" }
    patchSets :=
      [{ approvals := [{ by_ := jenkinsBy, value := 1 }, { by_ := jenkinsBy, value := 1 }] }] }

/-- Reviewday data with no projects. -/
def rdEmpty : V2.ReviewDayData := { projects := [] }

/-- A plain V2 review (owner and last commenter `bob`, no approvals). -/
def w6Review : V2.Review :=
  { url := "https://review.openstack.org/601"
    project := "openstack/nova"
    subject := "a change"
    owner := bob
    lastUpdated := 1
    currentPatchSet := { approvals := [] }
    comments := [{ reviewer := bob }]
    score := 0 }

/-- The review `w6Review` after score enrichment against `rdEmpty`. -/
def w6Scored : V2.Review := { w6Review with score := -1 }

/-- Two fully tied reviews (equal score and last update). -/
def w7aReview : V2.Review :=
  { url := "https://review.openstack.org/701"
    project := "p"
    subject := "a"
    owner := bob
    lastUpdated := 7
    currentPatchSet := { approvals := [] }
    comments := [{ reviewer := bob }]
    score := 3 }

/-- Second of the two fully tied reviews. -/
def w7bReview : V2.Review :=
  { url := "https://review.openstack.org/702"
    project := "p"
    subject := "b"
    owner := bob
    lastUpdated := 7
    currentPatchSet := { approvals := [] }
    comments := [{ reviewer := bob }]
    score := 3 }

/-- A V1 review whose last patch set has no approvals. -/
def w8Review : V1.Review :=
  { url := "https://review.openstack.org/801"
    subject := "unverified"
    status := "NEW"
    lastUpdated := 0
    owner := { username := "carol" }
    patchSets := [{ approvals := [] }] }

/-- A V2 review with an empty comment list. -/
def w9Review : V2.Review :=
  { url := "https://review.openstack.org/901"
    project := "openstack/nova"
    subject := "uncommented"
    owner := bob
    lastUpdated := 2
    currentPatchSet := { approvals := [] }
    comments := []
    score := 0 }

/-- Reviewday data listing only the project `nova`. -/
def rd10 : V2.ReviewDayData :=
  { projects :=
      [("nova", [("https://review.openstack.org/#change,42", { score := 5 })])] }

/-- A review whose project `keystone` is absent from `rd10`. -/
def w10Review : V2.Review :=
  { url := "https://review.openstack.org/1001"
    project := "openstack/keystone"
    subject := "unscored"
    owner := bob
    lastUpdated := 3
    currentPatchSet := { approvals := [] }
    comments := [{ reviewer := bob }]
    score := 0 }

/-- The review `w10Review` after score enrichment against `rd10`. -/
def w10Scored : V2.Review := { w10Review with score := -1 }

/-! Supporting lemmas about the embedded stages. -/

/-- A review is emitted by `requireUpvoteBy bot` exactly when it occurs in the
input and its last patch set carries a vote by `bot` of value `1`. -/
theorem mem_requireUpvoteBy {bot : String} {reviews : List V1.Review} {r : V1.Review} :
    r ∈ V1.requireUpvoteBy bot reviews ↔
      r ∈ reviews ∧ ∃ v ∈ V1.lastPatchSetApprovals r, v.by_.username = bot ∧ v.value = 1 := by
  induction reviews with
  | nil => simp [V1.requireUpvoteBy]
  | cons review rest ih =>
    simp only [V1.requireUpvoteBy, List.mem_append, List.mem_map, List.mem_filter,
      Bool.and_eq_true, beq_iff_eq, ih, List.mem_cons]
    constructor
    · rintro (⟨v, ⟨hv, hb, h1⟩, rfl⟩ | ⟨hr, hex⟩)
      · exact ⟨Or.inl rfl, v, hv, hb, h1⟩
      · exact ⟨Or.inr hr, hex⟩
    · rintro ⟨rfl | hr, v, hv, hb, h1⟩
      · exact Or.inl ⟨v, ⟨hv, hb, h1⟩, rfl⟩
      · exact Or.inr ⟨hr, v, hv, hb, h1⟩

/-- Everything `requireUpvoteBy` emits comes from its input. -/
theorem mem_of_mem_requireUpvoteBy {bot : String} {reviews : List V1.Review} {r : V1.Review}
    (h : r ∈ V1.requireUpvoteBy bot reviews) : r ∈ reviews :=
  (mem_requireUpvoteBy.mp h).1

/-- `ignore_my_good_reviews` emits an order-preserving subsequence. -/
theorem ignore_my_good_reviews_sublist (reviews : List V2.Review) (u e : Option String) :
    (V2.ignore_my_good_reviews reviews u e).Sublist reviews := by
  induction reviews with
  | nil => simp [V2.ignore_my_good_reviews]
  | cons review rest ih =>
    rw [V2.ignore_my_good_reviews]
    split
    · exact ih.cons₂ review
    · split
      · exact ih.cons₂ review
      · exact ih.cons review

/-- `ignore_previously_commented` emits an order-preserving subsequence
whenever it succeeds. -/
theorem ignore_previously_commented_sublist :
    ∀ {reviews : List V2.Review} {u e : Option String} {out : List V2.Review},
      V2.ignore_previously_commented reviews u e = some out → out.Sublist reviews := by
  intro reviews
  induction reviews with
  | nil =>
    intro u e out h
    simp only [V2.ignore_previously_commented, Option.some.injEq] at h
    simp [← h]
  | cons review rest ih =>
    intro u e out h
    rw [V2.ignore_previously_commented] at h
    cases hg : review.comments.getLast? with
    | none => simp only [hg] at h; exact absurd h (by simp)
    | some c =>
      simp only [hg] at h
      cases hr : V2.ignore_previously_commented rest u e with
      | none => simp only [hr] at h; exact absurd h (by simp)
      | some tail =>
        simp only [hr] at h
        by_cases hc : V2._name c.reviewer ≠ u ∧ V2._name c.reviewer ≠ e
        · rw [if_pos hc] at h
          cases h
          exact (ih hr).cons₂ review
        · rw [if_neg hc] at h
          cases h
          exact (ih hr).cons review

/-- Characterization of `ignore_previously_commented` on inputs where every
review has at least one comment: it filters on the last commenter's name. -/
theorem ignore_previously_commented_eq_filter
    (reviews : List V2.Review) (u e : Option String)
    (h : ∀ r ∈ reviews, r.comments ≠ []) :
    V2.ignore_previously_commented reviews u e =
      some (reviews.filter fun r =>
        decide (V2.lastCommenterName r ≠ u ∧ V2.lastCommenterName r ≠ e)) := by
  induction reviews with
  | nil => simp [V2.ignore_previously_commented]
  | cons review rest ih =>
    have hne : review.comments ≠ [] := h review (List.mem_cons_self review rest)
    obtain ⟨c, hc⟩ : ∃ c, review.comments.getLast? = some c := by
      cases hgl : review.comments.getLast? with
      | none => exact absurd (List.getLast?_eq_none_iff.mp hgl) hne
      | some c => exact ⟨c, rfl⟩
    have hrest := ih (fun r hr => h r (List.mem_cons_of_mem review hr))
    rw [V2.ignore_previously_commented]
    simp only [hc, hrest]
    have hname : V2.lastCommenterName review = V2._name c.reviewer := by
      rw [V2.lastCommenterName, hc]
    by_cases hcc : V2._name c.reviewer ≠ u ∧ V2._name c.reviewer ≠ e
    · rw [if_pos hcc, List.filter_cons_of_pos (by simpa [hname] using hcc)]
    · rw [if_neg hcc, List.filter_cons_of_neg (by simpa [hname] using hcc)]

/-- A failing review (empty comment list) anywhere in the input makes
`ignore_previously_commented` fail. -/
theorem ignore_previously_commented_none
    {reviews : List V2.Review} {u e : Option String} {r : V2.Review}
    (hr : r ∈ reviews) (hc : r.comments = []) :
    V2.ignore_previously_commented reviews u e = none := by
  induction reviews with
  | nil => cases hr
  | cons review rest ih =>
    rw [V2.ignore_previously_commented]
    rcases List.mem_cons.mp hr with rfl | hmem
    · rw [List.getLast?_eq_none_iff.mpr hc]
    · cases hg : review.comments.getLast? with
      | none => rfl
      | some c => rw [ih hmem]

/-- Score enrichment succeeds exactly on the same sequence of reviews,
fields updated: the URL sequence is unchanged. -/
theorem add_reviewday_scores_map_url :
    ∀ {reviews : List V2.Review} {rd : V2.ReviewDayData} {out : List V2.Review},
      V2.add_reviewday_scores reviews rd = some out →
      out.map V2.Review.url = reviews.map V2.Review.url := by
  intro reviews
  induction reviews with
  | nil =>
    intro rd out h
    simp only [V2.add_reviewday_scores, Option.some.injEq] at h
    simp [← h]
  | cons review rest ih =>
    intro rd out h
    rw [V2.add_reviewday_scores] at h
    cases hs : V2.get_score rd review with
    | none => rw [hs] at h; exact absurd h (by simp)
    | some s =>
      rw [hs] at h
      cases hr : V2.add_reviewday_scores rest rd with
      | none => rw [hr] at h; exact absurd h (by simp)
      | some tail =>
        rw [hr] at h
        cases h
        simpa using ih hr

/-- Every enriched review's score is the `get_score` of a review of the
input. -/
theorem add_reviewday_scores_mem_score :
    ∀ {reviews : List V2.Review} {rd : V2.ReviewDayData} {out : List V2.Review},
      V2.add_reviewday_scores reviews rd = some out →
      ∀ r' ∈ out, ∃ r ∈ reviews, V2.get_score rd r = some r'.score := by
  intro reviews
  induction reviews with
  | nil =>
    intro rd out h
    simp only [V2.add_reviewday_scores, Option.some.injEq] at h
    simp [← h]
  | cons review rest ih =>
    intro rd out h
    rw [V2.add_reviewday_scores] at h
    cases hs : V2.get_score rd review with
    | none => rw [hs] at h; exact absurd h (by simp)
    | some s =>
      rw [hs] at h
      cases hr : V2.add_reviewday_scores rest rd with
      | none => rw [hr] at h; exact absurd h (by simp)
      | some tail =>
        rw [hr] at h
        cases h
        intro r' hr'
        rcases List.mem_cons.mp hr' with rfl | hmem
        · exact ⟨review, List.mem_cons_self review rest, hs⟩
        · obtain ⟨r, hrmem, hrs⟩ := ih hr r' hmem
          exact ⟨r, List.mem_cons_of_mem review hrmem, hrs⟩

/-- The reviewday comparison is transitive. -/
theorem reviewdayLE_trans (a b c : V2.Review)
    (h₁ : V2.reviewdayLE a b) (h₂ : V2.reviewdayLE b c) : V2.reviewdayLE a c := by
  simp only [V2.reviewdayLE, decide_eq_true_eq] at h₁ h₂ ⊢
  omega

/-- The reviewday comparison is total. -/
theorem reviewdayLE_total (a b : V2.Review) :
    V2.reviewdayLE a b || V2.reviewdayLE b a := by
  simp only [V2.reviewdayLE, Bool.or_eq_true, decide_eq_true_eq]
  omega

/-- The last-update comparison is transitive. -/
theorem lastUpdatedLE_trans (a b c : V1.Review)
    (h₁ : V1.lastUpdatedLE a b) (h₂ : V1.lastUpdatedLE b c) : V1.lastUpdatedLE a c := by
  simp only [V1.lastUpdatedLE, decide_eq_true_eq] at h₁ h₂ ⊢
  omega

/-- The last-update comparison is total. -/
theorem lastUpdatedLE_total (a b : V1.Review) :
    V1.lastUpdatedLE a b || V1.lastUpdatedLE b a := by
  simp only [V1.lastUpdatedLE, Bool.or_eq_true, decide_eq_true_eq]
  omega

/-! The claims. -/

/-- Claim C5 (confirmed): `ignore_blocked_reviews` excludes exactly the
reviews whose latest patch set carries an approval of value `-2` and retains
every other review. -/
theorem c5_blocked_review_filter (reviews : List V1.Review) (r : V1.Review) :
    r ∈ V1.ignore_blocked_reviews reviews ↔
      r ∈ reviews ∧ ¬ ∃ v ∈ V1.lastPatchSetApprovals r, v.value = -2 := by
  simp [V1.ignore_blocked_reviews, List.mem_filter, List.mem_map]

/-- Claim C2, counterexample: a review whose latest patch set carries a
jenkins approval of value `+2` (hence `≥ +1`) is not admitted by
`require_jenkins_upvote`; the code compares the value to `1` exactly. -/
theorem c2_counterexample :
    V1.require_jenkins_upvote [cx2Review] = []
    ∧ ∃ v ∈ V1.lastPatchSetApprovals cx2Review,
        v.by_.username = "jenkins" ∧ (1 : Int) ≤ v.value :=
  ⟨by decide, by decide⟩

/-- Claim C2 (amended): each bot-upvote filter admits a review iff some
approval on the review's latest patch set is cast by the bot account with
value exactly `+1`. -/
theorem c2_bot_upvote_filter (reviews : List V1.Review) (r : V1.Review) :
    (r ∈ V1.require_jenkins_upvote reviews ↔
      r ∈ reviews ∧ ∃ v ∈ V1.lastPatchSetApprovals r,
        v.by_.username = "jenkins" ∧ v.value = 1)
    ∧ (r ∈ V1.require_smokestack_upvote reviews ↔
      r ∈ reviews ∧ ∃ v ∈ V1.lastPatchSetApprovals r,
        v.by_.username = "smokestack" ∧ v.value = 1) :=
  ⟨mem_requireUpvoteBy, mem_requireUpvoteBy⟩

/-- Claim C8 (confirmed): a review whose current patch set has no approvals
yields the empty vote list, and neither bot-upvote filter ever emits such a
review. -/
theorem c8_no_approvals :
    (∀ r : V2.Review, r.currentPatchSet.approvals = [] → V2.votes_for_review r = [])
    ∧ (∀ (reviews : List V1.Review) (r : V1.Review),
        V1.lastPatchSetApprovals r = [] →
        r ∉ V1.require_jenkins_upvote reviews ∧ r ∉ V1.require_smokestack_upvote reviews) := by
  constructor
  · intro r h
    simp [V2.votes_for_review, h]
  · intro reviews r h
    constructor
    · intro hmem
      obtain ⟨-, v, hv, -⟩ := mem_requireUpvoteBy.mp hmem
      rw [h] at hv
      exact absurd hv (List.not_mem_nil v)
    · intro hmem
      obtain ⟨-, v, hv, -⟩ := mem_requireUpvoteBy.mp hmem
      rw [h] at hv
      exact absurd hv (List.not_mem_nil v)

/-- Witness for C8 at concrete approval-free reviews. -/
theorem c8_witness :
    V2.votes_for_review w6Review = []
    ∧ w8Review ∉ V1.require_jenkins_upvote [w8Review]
    ∧ w8Review ∉ V1.require_smokestack_upvote [w8Review] :=
  ⟨c8_no_approvals.1 w6Review rfl,
   (c8_no_approvals.2 [w8Review] w8Review rfl).1,
   (c8_no_approvals.2 [w8Review] w8Review rfl).2⟩

/-- Claim C1, counterexample: a review owned by the caller `alice` whose only
vote is `alice`'s own `-2` — hence with no block vote from another party — is
retained by `ignore_my_good_reviews`, where the claim demands exclusion. -/
theorem c1_counterexample :
    V2._name cx1Review.owner = some "alice"
    ∧ ¬ (∃ a ∈ cx1Review.currentPatchSet.approvals,
          a.value = -2 ∧ V2._name a.by_ ≠ some "alice")
    ∧ V2.ignore_my_good_reviews [cx1Review] (some "alice") none = [cx1Review] :=
  ⟨by decide, by decide, by decide⟩

/-- Claim C1 (amended): a review owned by the caller is retained by
`ignore_my_good_reviews` iff its current patch set carries a Code-Review or
Verified vote of `-1` or `-2` from anyone (the voter's identity is not
inspected); otherwise it is excluded. -/
theorem c1_self_review_filter (reviews : List V2.Review) (username email : Option String)
    (r : V2.Review) (h : V2._name r.owner = username ∨ V2._name r.owner = email) :
    r ∈ V2.ignore_my_good_reviews reviews username email ↔
      r ∈ reviews ∧
        ((-1 : Int) ∈ V2.votes_for_review r ∨ (-2 : Int) ∈ V2.votes_for_review r) := by
  induction reviews with
  | nil => simp [V2.ignore_my_good_reviews]
  | cons review rest ih =>
    simp only [V2.ignore_my_good_reviews]
    split
    · rename_i h1
      have hne : r ≠ review := by
        rintro rfl
        rcases h with h | h
        · exact h1.1 h
        · exact h1.2 h
      simp only [List.mem_cons]
      constructor
      · rintro (hrr | hmem)
        · exact absurd hrr hne
        · obtain ⟨hr, hv⟩ := ih.mp hmem
          exact ⟨Or.inr hr, hv⟩
      · rintro ⟨hrr | hr, hv⟩
        · exact absurd hrr hne
        · exact Or.inr (ih.mpr ⟨hr, hv⟩)
    · split
      · rename_i h1 h2
        simp only [List.mem_cons]
        constructor
        · rintro (hrr | hmem)
          · subst hrr
            exact ⟨Or.inl rfl, h2.2⟩
          · obtain ⟨hr, hv⟩ := ih.mp hmem
            exact ⟨Or.inr hr, hv⟩
        · rintro ⟨hrr | hr, hv⟩
          · exact Or.inl hrr
          · exact Or.inr (ih.mpr ⟨hr, hv⟩)
      · rename_i h1 h2
        have hown : V2._name review.owner = username ∨ V2._name review.owner = email := by
          rcases not_and_or.mp h1 with h' | h'
          · exact Or.inl (not_not.mp h')
          · exact Or.inr (not_not.mp h')
        have hndv : ¬ ((-1 : Int) ∈ V2.votes_for_review review
            ∨ (-2 : Int) ∈ V2.votes_for_review review) :=
          fun hdv => h2 ⟨hown, hdv⟩
        simp only [List.mem_cons]
        constructor
        · intro hmem
          obtain ⟨hr, hv⟩ := ih.mp hmem
          exact ⟨Or.inr hr, hv⟩
        · rintro ⟨hrr | hr, hv⟩
          · subst hrr
            exact absurd hv hndv
          · exact ih.mpr ⟨hr, hv⟩

/-- Witness for C1 at a caller-owned review with a `-1` from a third party. -/
theorem c1_witness :
    (V2._name w1Review.owner = some "alice" ∨ V2._name w1Review.owner = none)
    ∧ (w1Review ∈ V2.ignore_my_good_reviews [w1Review] (some "alice") none ↔
        w1Review ∈ [w1Review] ∧
          ((-1 : Int) ∈ V2.votes_for_review w1Review
            ∨ (-2 : Int) ∈ V2.votes_for_review w1Review)) :=
  ⟨Or.inl (by decide),
   c1_self_review_filter [w1Review] (some "alice") none w1Review (Or.inl (by decide))⟩

/-- Claim C6 (confirmed): `ignore_previously_commented` excludes exactly the
reviews whose most recent comment's author identity (username, falling back
to email) equals the caller's username or email, and retains the rest in
order, provided every input review has at least one comment. -/
theorem c6_prior_comment_filter (reviews : List V2.Review) (username email : Option String)
    (h : ∀ r ∈ reviews, r.comments ≠ []) :
    V2.ignore_previously_commented reviews username email =
      some (reviews.filter fun r =>
        decide (V2.lastCommenterName r ≠ username ∧ V2.lastCommenterName r ≠ email)) :=
  ignore_previously_commented_eq_filter reviews username email h

/-- Witness for C6: a review last commented on by `bob` is retained for the
caller `alice`. -/
theorem c6_witness :
    (∀ r ∈ [w6Review], r.comments ≠ [])
    ∧ V2.ignore_previously_commented [w6Review] (some "alice") none =
        some ([w6Review].filter fun r =>
          decide (V2.lastCommenterName r ≠ some "alice" ∧ V2.lastCommenterName r ≠ none)) :=
  ⟨by decide, c6_prior_comment_filter [w6Review] (some "alice") none (by decide)⟩

/-- Claim C9 (confirmed): a review with an empty comment list anywhere in the
input makes `ignore_previously_commented` fail (the embedded `IndexError`)
rather than retain or exclude anything, and the filter succeeds whenever
every input review carries at least one comment. -/
theorem c9_totality (reviews : List V2.Review) (username email : Option String) :
    ((∃ r ∈ reviews, r.comments = []) →
      V2.ignore_previously_commented reviews username email = none)
    ∧ ((∀ r ∈ reviews, r.comments ≠ []) →
      (V2.ignore_previously_commented reviews username email).isSome = true) := by
  constructor
  · rintro ⟨r, hr, hc⟩
    exact ignore_previously_commented_none hr hc
  · intro h
    rw [ignore_previously_commented_eq_filter reviews username email h]
    rfl

/-- Witness for C9 at a comment-free review. -/
theorem c9_witness :
    (w9Review ∈ [w9Review] ∧ w9Review.comments = [])
    ∧ V2.ignore_previously_commented [w9Review] (some "alice") none = none :=
  ⟨⟨by decide, rfl⟩,
   (c9_totality [w9Review] (some "alice") none).1 ⟨w9Review, by decide, rfl⟩⟩

/-- Claim C3, counterexample: `require_jenkins_upvote` emits a review once per
qualifying jenkins vote, so a review with two jenkins `+1` approvals is
duplicated — its output is not a subsequence of its input. -/
theorem c3_counterexample :
    V1.require_jenkins_upvote [cx3Review] = [cx3Review, cx3Review]
    ∧ ¬ ([cx3Review, cx3Review].Sublist [cx3Review]) := by
  refine ⟨by decide, fun h => ?_⟩
  simpa using h.length_le

/-- Claim C3 (amended): every filter stage except the bot-upvote filters
emits an order-preserving subsequence of its input (score enrichment
preserves the URL sequence exactly); the bot-upvote filters draw only from
their input but may emit a review once per qualifying bot vote. -/
theorem c3_stage_subsequence :
    (∀ reviews : List V1.Review, (V1.ignore_wip reviews).Sublist reviews)
    ∧ (∀ reviews : List V1.Review, (V1.ignore_blocked_reviews reviews).Sublist reviews)
    ∧ (∀ (reviews : List V1.Review) (username : Option String),
        (V1.ignore_my_reviews reviews username).Sublist reviews)
    ∧ (∀ (reviews : List V2.Review) (username email : Option String),
        (V2.ignore_my_good_reviews reviews username email).Sublist reviews)
    ∧ (∀ (reviews : List V2.Review) (username email : Option String)
        (out : List V2.Review),
        V2.ignore_previously_commented reviews username email = some out →
        out.Sublist reviews)
    ∧ (∀ (reviews : List V2.Review) (igns : List String),
        (V2.filter_ignore_file reviews igns).Sublist reviews)
    ∧ (∀ (reviews : List V2.Review) (rd : V2.ReviewDayData) (out : List V2.Review),
        V2.add_reviewday_scores reviews rd = some out →
        out.map V2.Review.url = reviews.map V2.Review.url)
    ∧ (∀ (reviews : List V1.Review) (r : V1.Review),
        r ∈ V1.require_jenkins_upvote reviews → r ∈ reviews)
    ∧ (∀ (reviews : List V1.Review) (r : V1.Review),
        r ∈ V1.require_smokestack_upvote reviews → r ∈ reviews) := by
  refine ⟨?_, ?_, ?_, ?_, ?_, ?_, ?_, ?_, ?_⟩
  · intro reviews
    exact List.filter_sublist reviews
  · intro reviews
    exact List.filter_sublist reviews
  · intro reviews username
    exact List.filter_sublist reviews
  · intro reviews username email
    exact ignore_my_good_reviews_sublist reviews username email
  · intro reviews username email out hout
    exact ignore_previously_commented_sublist hout
  · intro reviews igns
    exact List.filter_sublist reviews
  · intro reviews rd out hout
    exact add_reviewday_scores_map_url hout
  · intro reviews r hr
    exact mem_of_mem_requireUpvoteBy hr
  · intro reviews r hr
    exact mem_of_mem_requireUpvoteBy hr

/-- Witness for C3 at concrete pipeline stages that carry hypotheses. -/
theorem c3_witness :
    V2.add_reviewday_scores [w10Review] rd10 = some [w10Scored]
    ∧ [w10Scored].map V2.Review.url = [w10Review].map V2.Review.url
    ∧ V2.ignore_previously_commented [w6Review] (some "alice") none = some [w6Review]
    ∧ [w6Review].Sublist [w6Review] := by
  have h1 : V2.add_reviewday_scores [w10Review] rd10 = some [w10Scored] := by decide
  have h2 : V2.ignore_previously_commented [w6Review] (some "alice") none =
      some [w6Review] := by decide
  exact ⟨h1, c3_stage_subsequence.2.2.2.2.2.2.1 [w10Review] rd10 [w10Scored] h1,
         h2, c3_stage_subsequence.2.2.2.2.1 [w6Review] (some "alice") none [w6Review] h2⟩

/-- Claim C7 (confirmed): the V2 ranker permutes its input into an order
where any review of strictly higher score precedes any of lower score and
equal-score reviews are in ascending last-updated order; fully tied adjacent
pairs keep their input order (stability); the V1 ranker orders ascending by
last-updated alone. -/
theorem c7_ranker_order :
    (∀ reviews : List V2.Review,
      (V2.sort_review_by_reviewday_score reviews).Perm reviews
      ∧ (V2.sort_review_by_reviewday_score reviews).Pairwise
          (fun a b => b.score < a.score ∨ (a.score = b.score ∧ a.lastUpdated ≤ b.lastUpdated)))
    ∧ (∀ (reviews : List V2.Review) (a b : V2.Review),
        a.score = b.score → a.lastUpdated = b.lastUpdated →
        ([a, b]).Sublist reviews →
        ([a, b]).Sublist (V2.sort_review_by_reviewday_score reviews))
    ∧ (∀ reviews : List V1.Review,
      (V1.sort_reviews_by_last_updated reviews).Perm reviews
      ∧ (V1.sort_reviews_by_last_updated reviews).Pairwise
          (fun a b => a.lastUpdated ≤ b.lastUpdated)) := by
  refine ⟨?_, ?_, ?_⟩
  · intro reviews
    refine ⟨List.mergeSort_perm reviews _, ?_⟩
    have hs := List.sorted_mergeSort reviewdayLE_trans reviewdayLE_total reviews
    refine hs.imp ?_
    intro a b hab
    simp only [V2.reviewdayLE, decide_eq_true_eq] at hab
    omega
  · intro reviews a b hsc hlu hsub
    have hab : V2.reviewdayLE a b = true := by
      simp only [V2.reviewdayLE, decide_eq_true_eq]
      omega
    exact List.pair_sublist_mergeSort reviewdayLE_trans reviewdayLE_total hab hsub
  · intro reviews
    refine ⟨List.mergeSort_perm reviews _, ?_⟩
    have hs := List.sorted_mergeSort lastUpdatedLE_trans lastUpdatedLE_total reviews
    refine hs.imp ?_
    intro a b hab
    simpa [V1.lastUpdatedLE] using hab

/-- Witness for C7 at a fully tied pair of reviews. -/
theorem c7_witness :
    w7aReview.score = w7bReview.score
    ∧ w7aReview.lastUpdated = w7bReview.lastUpdated
    ∧ ([w7aReview, w7bReview]).Sublist [w7aReview, w7bReview]
    ∧ ([w7aReview, w7bReview]).Sublist
        (V2.sort_review_by_reviewday_score [w7aReview, w7bReview]) :=
  ⟨rfl, rfl, List.Sublist.refl _,
   c7_ranker_order.2.1 [w7aReview, w7bReview] w7aReview w7bReview rfl rfl
     (List.Sublist.refl _)⟩

/-- Claim C10 (confirmed): `get_score` returns `-1` when the review's project
(last path segment) is absent from the loaded data; enriched scores are
`get_score` values of input reviews; and in the ranked output no review of
score `-1` ever precedes a review of score `≥ 0`. -/
theorem c10_unscored_rank :
    (∀ (rd : V2.ReviewDayData) (review : V2.Review),
        rd.projects.lookup ((V2.splitSlash review.project).getLastD "") = none →
        V2.get_score rd review = some (-1))
    ∧ (∀ (reviews : List V2.Review) (rd : V2.ReviewDayData) (out : List V2.Review),
        V2.add_reviewday_scores reviews rd = some out →
        ∀ r' ∈ out, ∃ r ∈ reviews, V2.get_score rd r = some r'.score)
    ∧ (∀ reviews : List V2.Review,
        (V2.sort_review_by_reviewday_score reviews).Pairwise
          (fun a b => a.score = -1 → (0 : Int) ≤ b.score → False)) := by
  refine ⟨?_, ?_, ?_⟩
  · intro rd review h
    simp only [V2.get_score, h]
  · intro reviews rd out hout
    exact add_reviewday_scores_mem_score hout
  · intro reviews
    have hs := List.sorted_mergeSort reviewdayLE_trans reviewdayLE_total reviews
    refine hs.imp ?_
    intro a b hab
    simp only [V2.reviewdayLE, decide_eq_true_eq] at hab
    omega

/-- Witness for C10 at a review whose project is absent from the data. -/
theorem c10_witness :
    rd10.projects.lookup ((V2.splitSlash w10Review.project).getLastD "") = none
    ∧ V2.get_score rd10 w10Review = some (-1)
    ∧ V2.add_reviewday_scores [w10Review] rd10 = some [w10Scored]
    ∧ ∃ r ∈ [w10Review], V2.get_score rd10 r = some w10Scored.score := by
  have h0 : rd10.projects.lookup ((V2.splitSlash w10Review.project).getLastD "") = none := by
    decide
  have h1 : V2.add_reviewday_scores [w10Review] rd10 = some [w10Scored] := by decide
  exact ⟨h0, c10_unscored_rank.1 rd10 w10Review h0, h1,
         c10_unscored_rank.2.1 [w10Review] rd10 [w10Scored] h1 w10Scored (by decide)⟩

/-- Claim C4, counterexample: in list mode (`--list`) with zero surviving
reviews, `main` prints nothing at all — the `Nothing to review!` message is
only emitted on the non-list path — though the exit code is `0` as claimed. -/
theorem c4_counterexample :
    V2.main_filtered [] none none none rdEmpty = some []
    ∧ V2.main_run true [] none none none rdEmpty =
        some { lines := [], opened := none, exitCode := 0 }
    ∧ "Nothing to review!" ∉ (V2.main_present true ([] : List V2.Review)).lines := by
  refine ⟨?_, ?_, ?_⟩ <;>
    simp [V2.main_filtered, V2.main_run, V2.main_present, V2.render_reviews,
      V2.ignore_my_good_reviews, V2.ignore_previously_commented,
      V2.add_reviewday_scores, V2.sort_review_by_reviewday_score]

/-- Claim C4 (amended): `main` always exits with status equal to the number
of reviews surviving the pipeline; when zero reviews survive and list mode is
off, it prints `Nothing to review!` and exits with status `0`. -/
theorem c4_exit_and_empty_message :
    (∀ (list : Bool) (reviews : List V2.Review),
        (V2.main_present list reviews).exitCode = reviews.length)
    ∧ (∀ (list : Bool) (reviews : List V2.Review) (username email : Option String)
        (ign : Option (List String)) (rd : V2.ReviewDayData) (out : List V2.Review),
        V2.main_filtered reviews username email ign rd = some out →
        V2.main_run list reviews username email ign rd = some (V2.main_present list out))
    ∧ (∀ (reviews : List V2.Review) (username email : Option String)
        (ign : Option (List String)) (rd : V2.ReviewDayData),
        V2.main_filtered reviews username email ign rd = some [] →
        V2.main_run false reviews username email ign rd =
          some { lines := ["Nothing to review!"], opened := none, exitCode := 0 }) := by
  refine ⟨?_, ?_, ?_⟩
  · intro list reviews
    rw [V2.main_present]
    split
    · rfl
    · split
      · rfl
      · rfl
  · intro list reviews username email ign rd out h
    rw [V2.main_run, h]
    rfl
  · intro reviews username email ign rd h
    rw [V2.main_run, h]
    rfl

/-- Witness for C4 on an empty query result. -/
theorem c4_witness :
    V2.main_filtered [] none none none rdEmpty = some []
    ∧ V2.main_run false [] none none none rdEmpty =
        some { lines := ["Nothing to review!"], opened := none, exitCode := 0 } := by
  have h : V2.main_filtered [] none none none rdEmpty = some [] := by
    simp [V2.main_filtered, V2.ignore_my_good_reviews, V2.ignore_previously_commented,
      V2.add_reviewday_scores, V2.sort_review_by_reviewday_score]
  exact ⟨h, c4_exit_and_empty_message.2.2 [] none none none rdEmpty h⟩
